import Mathlib

/-!
Verification of `nemo_rl/models/generation/vllm.py`.

This file gives a shallow embedding of the pure/deterministic parts of the
vLLM generation worker and orchestrator: worker placement configuration
(`configure_worker`), tied-worker-group partitioning
(`_get_tied_worker_bundle_indices`), sampling-parameter construction
(`_build_sampling_params` and the inline construction in `generate_text`),
output-batch assembly in `generate` and `generate_async`, the weight-update
entry points (`update_weights_from_ipc_handles` and its async counterpart),
and `shutdown`.  External collaborators (the vLLM engine, Ray, torch/gc) are
modelled at their interface boundary: the engine's per-request results and
the outcomes of fallible external calls are explicit parameters.
-/

namespace NemoVllm

/-- Result of `VllmGenerationWorker.configure_worker`: the resource request,
the environment variables, and the init kwargs (each optional kwarg is
modelled as an `Option` field; `none` means the kwarg is absent). -/
structure ConfigureResult where
  num_gpus : ℚ
  env_vars : List (String × String)
  init_bundle_indices : Option (List Nat)
  init_seed : Option Nat
  init_fraction_of_gpus : Option ℚ
deriving Repr, DecidableEq

/-- Embedding of `VllmGenerationWorker.configure_worker` (vllm.py lines
86-121).  `bundleIndices` is the optional `(node_idx, local_bundle_indices)`
pair.  When it is present the worker records the local bundle indices and a
seed `node_idx * 1024 + first_local_index / group_size`; when the worker is
part of a tensor-parallel group (more than one local bundle index) or has no
bundle indices at all, the GPU resource request is zeroed, the fractional
share is passed through `fraction_of_gpus`, and the CUDA-visibility bypass
env var is set.  The two engine env vars are always set. -/
def configure_worker (numGpus : ℚ) (bundleIndices : Option (Nat × List Nat)) :
    ConfigureResult :=
  let initBundle : Option (List Nat) := bundleIndices.map (fun p => p.2)
  let initSeed : Option Nat :=
    bundleIndices.map (fun p => p.1 * 1024 + p.2.headD 0 / p.2.length)
  let isPartOfTpWorkers : Bool :=
    match bundleIndices with
    | some (_, locs) => decide (locs.length > 1)
    | none => true
  { num_gpus := if isPartOfTpWorkers then 0 else numGpus
    env_vars :=
      (if isPartOfTpWorkers then
        [("RAY_EXPERIMENTAL_NOSET_CUDA_VISIBLE_DEVICES", "1")]
      else []) ++
      [("VLLM_ENABLE_V1_MULTIPROCESSING", "0"), ("VLLM_SKIP_P2P_CHECK", "1")]
    init_bundle_indices := initBundle
    init_seed := initSeed
    init_fraction_of_gpus :=
      if isPartOfTpWorkers then some numGpus else none }

/-- C2 counterexample: the claim says that with `bundle_indices = None` the
returned resource request keeps `num_gpus` unchanged.  In the code,
`is_part_of_tp_workers` is true when `local_bundle_indices is None`, so the
resource request is zeroed: for `num_gpus = 1` the returned value is `0`,
not `1`. -/
theorem configure_worker_none_zeroes_gpus :
    (configure_worker 1 none).num_gpus = 0 ∧ (0 : ℚ) ≠ 1 := by
  refine ⟨rfl, by norm_num⟩

/-- C2 (amended): when `bundle_indices` is absent, `configure_worker` zeroes
the GPU resource request, passes the original share through the
`fraction_of_gpus` init kwarg, sets the CUDA-visibility bypass env var, and
the init kwargs contain no bundle-index and no seed entry. -/
theorem configure_worker_none_spec (g : ℚ) :
    (configure_worker g none).num_gpus = 0 ∧
    (configure_worker g none).init_bundle_indices = none ∧
    (configure_worker g none).init_seed = none ∧
    (configure_worker g none).init_fraction_of_gpus = some g ∧
    ("RAY_EXPERIMENTAL_NOSET_CUDA_VISIBLE_DEVICES", "1")
      ∈ (configure_worker g none).env_vars := by
  refine ⟨rfl, rfl, rfl, rfl, ?_⟩
  simp [configure_worker]

/-- C4: `configure_worker` derives
`seed = node_idx * 1024 + first_local_index / group_size` (with
`group_size` the length of the local bundle index list), so two bundle
assignments get equal seeds iff they agree on the node index and on the
derived group id, provided each group id is below 1024. -/
theorem configure_worker_seed_spec (g : ℚ) (n₁ n₂ : Nat)
    (l₁ l₂ : List Nat) (h₁ : l₁ ≠ []) (h₂ : l₂ ≠ [])
    (hb₁ : l₁.headD 0 / l₁.length < 1024)
    (hb₂ : l₂.headD 0 / l₂.length < 1024) :
    (configure_worker g (some (n₁, l₁))).init_seed
      = some (n₁ * 1024 + l₁.headD 0 / l₁.length) ∧
    ((configure_worker g (some (n₁, l₁))).init_seed
        = (configure_worker g (some (n₂, l₂))).init_seed
      ↔ n₁ = n₂ ∧ l₁.headD 0 / l₁.length = l₂.headD 0 / l₂.length) := by
  have e₁ : (configure_worker g (some (n₁, l₁))).init_seed
      = some (n₁ * 1024 + l₁.headD 0 / l₁.length) := rfl
  have e₂ : (configure_worker g (some (n₂, l₂))).init_seed
      = some (n₂ * 1024 + l₂.headD 0 / l₂.length) := rfl
  refine ⟨e₁, ?_⟩
  rw [e₁, e₂, Option.some_inj]
  constructor
  · intro h
    generalize l₁.headD 0 / l₁.length = a at h hb₁ ⊢
    generalize l₂.headD 0 / l₂.length = b at h hb₂ ⊢
    constructor <;> omega
  · rintro ⟨rfl, h⟩
    rw [h]

/-- C4 witness: two concrete assignments on node 0 and node 1 with group
ids 0 and 1, all hypotheses discharged at these inputs. -/
theorem configure_worker_seed_spec_witness :
    (configure_worker 1 (some (1, [4, 5, 6, 7]))).init_seed
      = some (1 * 1024 + [4, 5, 6, 7].headD 0 / [4, 5, 6, 7].length) ∧
    ((configure_worker 1 (some (1, [4, 5, 6, 7]))).init_seed
        = (configure_worker 1 (some (0, [0, 1, 2, 3]))).init_seed
      ↔ 1 = 0 ∧ [4, 5, 6, 7].headD 0 / [4, 5, 6, 7].length
          = [0, 1, 2, 3].headD 0 / [0, 1, 2, 3].length) :=
  configure_worker_seed_spec 1 1 0 [4, 5, 6, 7] [0, 1, 2, 3]
    (by decide) (by decide) (by decide) (by decide)

/-- Groups of `tp` consecutive local bundle indices formed on a single node
holding `bundles` bundles: one group per `groupIdx < bundles / tp`, covering
local indices `[groupIdx * tp, (groupIdx + 1) * tp)` (the inner loop of
`VllmGeneration._get_tied_worker_bundle_indices`, vllm.py lines 929-935). -/
def nodeGroups (nodeIdx bundles tp : Nat) : List (Nat × List Nat) :=
  (List.range (bundles / tp)).map
    (fun groupIdx => (nodeIdx, List.range' (groupIdx * tp) tp))

/-- Embedding of `VllmGeneration._get_tied_worker_bundle_indices` (vllm.py
lines 913-943).  `bundleCounts` holds each placement group's bundle count in
node order; the result is the ordered list of `(node_idx,
local_bundle_indices)` tied groups, or the `ValueError` raised when no
group can be formed. -/
def get_tied_worker_bundle_indices (bundleCounts : List Nat) (tp : Nat) :
    Except String (List (Nat × List Nat)) :=
  let tiedWorkerGroups :=
    bundleCounts.enum.flatMap (fun p => nodeGroups p.1 p.2 tp)
  if tiedWorkerGroups.isEmpty then
    Except.error "Cannot create any tensor parallel tied worker groups"
  else
    Except.ok tiedWorkerGroups

/-- The flattened group list has one entry per `(node, groupIdx)` pair with
`groupIdx < bundles_on_node / tp`. -/
theorem length_tied_groups (counts : List Nat) (tp : Nat) :
    (counts.enum.flatMap (fun p => nodeGroups p.1 p.2 tp)).length
      = (counts.map (fun b => b / tp)).sum := by
  rw [List.length_flatMap]
  have h1 : (List.map (List.length ∘ fun p => nodeGroups p.1 p.2 tp)
        counts.enum)
      = counts.enum.map (fun p => p.2 / tp) := by
    apply List.map_congr_left
    intro p _
    simp [nodeGroups]
  rw [h1]
  have h2 : counts.enum.map (fun p => p.2 / tp)
      = (counts.enum.map Prod.snd).map (fun b => b / tp) := by
    rw [List.map_map]
    rfl
  rw [h2, List.enum_map_snd]

/-- Membership characterization of the flattened tied-group list. -/
theorem mem_tied_groups {counts : List Nat} {tp : Nat} {q : Nat × List Nat} :
    q ∈ counts.enum.flatMap (fun p => nodeGroups p.1 p.2 tp)
      ↔ ∃ b g, counts[q.1]? = some b ∧ g < b / tp
          ∧ q.2 = List.range' (g * tp) tp := by
  rw [List.mem_flatMap]
  constructor
  · rintro ⟨p, hp, hq⟩
    simp only [nodeGroups, List.mem_map, List.mem_range] at hq
    obtain ⟨g, hg, rfl⟩ := hq
    refine ⟨p.2, g, ?_, hg, rfl⟩
    have : (p.1, p.2) ∈ counts.enum := by
      simpa using hp
    exact List.mk_mem_enum_iff_getElem?.mp this
  · rintro ⟨b, g, hb, hg, hq⟩
    refine ⟨(q.1, b), List.mk_mem_enum_iff_getElem?.mpr hb, ?_⟩
    simp only [nodeGroups, List.mem_map, List.mem_range]
    exact ⟨g, hg, by rw [← hq]⟩

/-- C5: with a valid tensor-parallel size `tp ≥ 1`, the partitioner produces
only complete groups of exactly `tp` consecutive local bundle indices,
any two distinct groups on the same node are disjoint, the total number of
groups equals the sum over nodes of `bundles_on_node / tp` (remainders
discarded), and it raises an error exactly when zero groups can be formed
across the whole cluster. -/
theorem tied_worker_bundle_indices_spec (counts : List Nat) (tp : Nat)
    (htp : 1 ≤ tp) :
    (∀ res, get_tied_worker_bundle_indices counts tp = Except.ok res →
      (∀ p ∈ res, p.2.length = tp ∧ p.2 = List.range' (p.2.headD 0) tp) ∧
      (∀ p ∈ res, ∀ q ∈ res, p.1 = q.1 → p.2 ≠ q.2 →
        ∀ x ∈ p.2, x ∉ q.2) ∧
      res.length = (counts.map (fun b => b / tp)).sum) ∧
    ((∃ e, get_tied_worker_bundle_indices counts tp = Except.error e)
      ↔ (counts.map (fun b => b / tp)).sum = 0) := by
  obtain ⟨tp', rfl⟩ : ∃ tp', tp = tp' + 1 :=
    ⟨tp - 1, by omega⟩
  set tied := counts.enum.flatMap (fun p => nodeGroups p.1 p.2 (tp' + 1))
    with htied
  have hlen : tied.length = (counts.map (fun b => b / (tp' + 1))).sum :=
    length_tied_groups counts (tp' + 1)
  constructor
  · intro res hres
    have hres' : res = tied := by
      unfold get_tied_worker_bundle_indices at hres
      by_cases hemp : tied.isEmpty
      · rw [← htied] at hres
        simp [hemp] at hres
      · rw [← htied] at hres
        simp [hemp] at hres
        exact hres.symm
    subst hres'
    refine ⟨?_, ?_, hlen⟩
    · intro p hp
      obtain ⟨b, g, hb, hg, hform⟩ := mem_tied_groups.mp hp
      constructor
      · rw [hform, List.length_range']
      · rw [hform]
        simp [List.range'_succ]
    · intro p hp q hq hnode hne x hxp hxq
      obtain ⟨b₁, g₁, hb₁, hg₁, hform₁⟩ := mem_tied_groups.mp hp
      obtain ⟨b₂, g₂, hb₂, hg₂, hform₂⟩ := mem_tied_groups.mp hq
      have hgne : g₁ ≠ g₂ := by
        intro h
        apply hne
        rw [hform₁, hform₂, h]
      rw [hform₁, List.mem_range'_1] at hxp
      rw [hform₂, List.mem_range'_1] at hxq
      rcases Nat.lt_or_ge g₁ g₂ with hlt | hge
      · have : (g₁ + 1) * (tp' + 1) ≤ g₂ * (tp' + 1) :=
          Nat.mul_le_mul_right _ hlt
        rw [Nat.succ_mul] at this
        omega
      · have hlt : g₂ < g₁ := Nat.lt_of_le_of_ne hge (Ne.symm hgne)
        have : (g₂ + 1) * (tp' + 1) ≤ g₁ * (tp' + 1) :=
          Nat.mul_le_mul_right _ hlt
        rw [Nat.succ_mul] at this
        omega
  · unfold get_tied_worker_bundle_indices
    rw [← htied]
    by_cases hemp : tied.isEmpty
    · simp only [hemp, if_true]
      have : tied.length = 0 := by
        rw [List.isEmpty_iff] at hemp
        rw [hemp]
        rfl
      constructor
      · intro _
        omega
      · intro _
        exact ⟨_, rfl⟩
    · simp only [hemp, if_false]
      constructor
      · rintro ⟨e, he⟩
        exact absurd he (by simp)
      · intro hsum
        have : tied.length = 0 := by omega
        rw [List.length_eq_zero] at this
        rw [List.isEmpty_iff] at hemp
        exact absurd this hemp

/-- C5 witness: nodes with 5 and 2 bundles and `tp = 2` produce three
groups (`[0,1]` and `[2,3]` on node 0, `[0,1]` on node 1), discarding the
remainder bundle on node 0; the hypothesis `1 ≤ 2` is discharged
concretely. -/
theorem tied_worker_bundle_indices_spec_witness :
    (∀ res, get_tied_worker_bundle_indices [5, 2] 2 = Except.ok res →
      (∀ p ∈ res, p.2.length = 2 ∧ p.2 = List.range' (p.2.headD 0) 2) ∧
      (∀ p ∈ res, ∀ q ∈ res, p.1 = q.1 → p.2 ≠ q.2 →
        ∀ x ∈ p.2, x ∉ q.2) ∧
      res.length = ([5, 2].map (fun b => b / 2)).sum) ∧
    ((∃ e, get_tied_worker_bundle_indices [5, 2] 2 = Except.error e)
      ↔ ([5, 2].map (fun b => b / 2)).sum = 0) :=
  tied_worker_bundle_indices_spec [5, 2] 2 (by decide)

/-- The vLLM `SamplingParams` fields set by this module.  `logprobs` is
`some 0` when the constructor passes `logprobs=0` and `none` when it omits
the argument. -/
structure SamplingParams where
  temperature : ℚ
  top_p : ℚ
  top_k : Int
  max_tokens : Nat
  logprobs : Option Nat
  stop_token_ids : List Nat
  stop : Option (List String)
  include_stop_str_in_output : Bool
deriving Repr, DecidableEq

/-- The configuration fields of `VllmGenerationWorker` consulted by the
operations modelled here (`self.cfg["temperature"]`, `self.cfg["top_p"]`,
`self.cfg["top_k"]`, `self.cfg["max_new_tokens"]`,
`self.cfg["stop_token_ids"]`, `self.cfg["pad_token_id"]`, and
`self.cfg["vllm_cfg"]["async_engine"]`). -/
structure WorkerCfg where
  temperature : ℚ
  top_p : ℚ
  top_k : Option Int
  max_new_tokens : Nat
  stop_token_ids : List Nat
  pad_token_id : Nat
  async_engine : Bool
deriving Repr, DecidableEq

/-- Embedding of `VllmGenerationWorker._build_sampling_params` (vllm.py
lines 244-259), the sampling-parameter construction shared by `generate`
and `generate_async`. -/
def build_sampling_params (cfg : WorkerCfg) (greedy : Bool)
    (stop_strings : Option (List String)) : SamplingParams :=
  let topKVal : Int :=
    if greedy then 1 else
      match cfg.top_k with
      | some k => k
      | none => -1
  let temperature : ℚ := if greedy then 0 else cfg.temperature
  { temperature := temperature
    top_p := cfg.top_p
    top_k := topKVal
    max_tokens := cfg.max_new_tokens
    logprobs := some 0
    stop_token_ids := cfg.stop_token_ids
    stop := stop_strings
    include_stop_str_in_output := true }

/-- Embedding of the inline sampling-parameter construction in
`VllmGenerationWorker.generate_text` (vllm.py lines 618-628); unlike
`_build_sampling_params` it does not request log-probabilities. -/
def generate_text_sampling_params (cfg : WorkerCfg) (greedy : Bool)
    (stop_strings : Option (List String)) : SamplingParams :=
  let topK : Int :=
    match cfg.top_k with
    | some k => k
    | none => -1
  { temperature := if greedy then 0 else cfg.temperature
    top_p := cfg.top_p
    top_k := if greedy then 1 else topK
    max_tokens := cfg.max_new_tokens
    logprobs := none
    stop_token_ids := cfg.stop_token_ids
    stop := stop_strings
    include_stop_str_in_output := true }

/-- C7: for every configuration, greedy decoding forces `temperature = 0`
and `top_k = 1` in both sampling-parameter constructions (the one shared by
`generate`/`generate_async` and the inline one in `generate_text`); with
`greedy = False` the configured temperature is used and a configured
`top_k` of `None` maps to `-1`. -/
theorem greedy_sampling_spec (cfg : WorkerCfg)
    (stop : Option (List String)) :
    ((build_sampling_params cfg true stop).temperature = 0 ∧
     (build_sampling_params cfg true stop).top_k = 1) ∧
    ((generate_text_sampling_params cfg true stop).temperature = 0 ∧
     (generate_text_sampling_params cfg true stop).top_k = 1) ∧
    ((build_sampling_params cfg false stop).temperature = cfg.temperature ∧
     (generate_text_sampling_params cfg false stop).temperature
        = cfg.temperature) ∧
    (cfg.top_k = none →
      (build_sampling_params cfg false stop).top_k = -1 ∧
      (generate_text_sampling_params cfg false stop).top_k = -1) := by
  refine ⟨⟨rfl, rfl⟩, ⟨rfl, rfl⟩, ⟨rfl, rfl⟩, ?_⟩
  intro hk
  constructor
  · simp [build_sampling_params, hk]
  · simp [generate_text_sampling_params, hk]

/-- C7 witness: a configuration with non-greedy temperature 7/10 and
`top_k = None`, instantiating the theorem concretely. -/
theorem greedy_sampling_spec_witness :
    (((build_sampling_params
        ⟨7/10, 1, none, 16, [], 0, false⟩ true none).temperature = 0 ∧
      (build_sampling_params
        ⟨7/10, 1, none, 16, [], 0, false⟩ true none).top_k = 1) ∧
     ((generate_text_sampling_params
        ⟨7/10, 1, none, 16, [], 0, false⟩ true none).temperature = 0 ∧
      (generate_text_sampling_params
        ⟨7/10, 1, none, 16, [], 0, false⟩ true none).top_k = 1) ∧
     ((build_sampling_params
        ⟨7/10, 1, none, 16, [], 0, false⟩ false none).temperature
          = WorkerCfg.temperature ⟨7/10, 1, none, 16, [], 0, false⟩ ∧
      (generate_text_sampling_params
        ⟨7/10, 1, none, 16, [], 0, false⟩ false none).temperature
          = WorkerCfg.temperature ⟨7/10, 1, none, 16, [], 0, false⟩) ∧
     (WorkerCfg.top_k ⟨7/10, 1, none, 16, [], 0, false⟩ = none →
       (build_sampling_params
         ⟨7/10, 1, none, 16, [], 0, false⟩ false none).top_k = -1 ∧
       (generate_text_sampling_params
         ⟨7/10, 1, none, 16, [], 0, false⟩ false none).top_k = -1)) :=
  greedy_sampling_spec ⟨7/10, 1, none, 16, [], 0, false⟩ none

/-- Embedding of `VllmGenerationWorker.update_weights_from_ipc_handles`
(vllm.py lines 709-744).  The whole body runs inside `try/except`: a failed
owner assertion, the `RuntimeError` raised under the async engine flavor,
an exception inside `collective_rpc`, and the `IndexError` on an empty
result list are all caught and yield `False`.  Otherwise the method
consults `result_or_coro[0]` — the first internal worker's result only —
and returns it. -/
def update_weights_from_ipc_handles (llmPresent asyncEngine : Bool)
    (rpc : Except Unit (List Bool)) : Bool :=
  if !llmPresent then false
  else if asyncEngine then false
  else
    match rpc with
    | Except.error _ => false
    | Except.ok [] => false
    | Except.ok (workerResult :: _) => workerResult

/-- Embedding of
`VllmGenerationWorker.update_weights_from_ipc_handles_async` (vllm.py lines
746-789): identical to the synchronous entry point except that it requires
the async engine flavor. -/
def update_weights_from_ipc_handles_async (llmPresent asyncEngine : Bool)
    (rpc : Except Unit (List Bool)) : Bool :=
  if !llmPresent then false
  else if !asyncEngine then false
  else
    match rpc with
    | Except.error _ => false
    | Except.ok [] => false
    | Except.ok (workerResult :: _) => workerResult

/-- C1 counterexample: the claim says the weight update returns `True` only
if every internal worker reported success.  With per-internal-worker
results `[True, False]` — the second internal worker failed — the code
still returns `True`, because it only consults `result_or_coro[0]`. -/
theorem update_weights_first_result_only :
    update_weights_from_ipc_handles true false
        (Except.ok [true, false]) = true ∧
    ([true, false].all (fun b => b)) = false := by
  exact ⟨rfl, rfl⟩

/-- C1 (amended): the weight-update entry points return `True` iff the
worker owns an engine, the engine flavor matches the entry point, the
broadcast `collective_rpc` raised no exception, and the FIRST internal
worker's result is success (a non-empty result list); exceptions, empty
result lists, non-owners and flavor mismatches all yield `False`
(fail-closed), but failures of internal workers other than the first are
not detected. -/
theorem update_weights_spec (llmPresent asyncEngine : Bool)
    (rpc : Except Unit (List Bool)) :
    (update_weights_from_ipc_handles llmPresent asyncEngine rpc = true
      ↔ llmPresent = true ∧ asyncEngine = false ∧
          ∃ rest, rpc = Except.ok (true :: rest)) ∧
    (update_weights_from_ipc_handles_async llmPresent asyncEngine rpc = true
      ↔ llmPresent = true ∧ asyncEngine = true ∧
          ∃ rest, rpc = Except.ok (true :: rest)) := by
  constructor
  · cases llmPresent <;> cases asyncEngine <;>
      rcases rpc with e | (_ | ⟨r, rest⟩) <;>
      simp [update_weights_from_ipc_handles] <;>
      cases r <;> simp
  · cases llmPresent <;> cases asyncEngine <;>
      rcases rpc with e | (_ | ⟨r, rest⟩) <;>
      simp [update_weights_from_ipc_handles_async] <;>
      cases r <;> simp

/-- The final engine result for one request: the generated token ids and
the per-generated-position log-probability dictionaries.  Each dictionary
is an insertion-ordered association list from token id to log-probability
(log-probability values are only ever copied, so they are modelled as
integers); an empty outer list models an engine that reported no
log-probabilities (falsy `generation.logprobs`). -/
structure CompletionOutput where
  token_ids : List Nat
  logprobs : List (List (Nat × Int))
deriving Repr, DecidableEq, Inhabited

/-- The maximum generated length across the engine outputs of one
sub-batch (`max_length` accumulation in `generate`, vllm.py lines
330-332). -/
def maxGenLen (outputs : List CompletionOutput) : Nat :=
  outputs.foldl (fun m o => max m o.token_ids.length) 0

/-- One output row of `generate`/`generate_async`: a tensor of `totalLen`
pad tokens, overwritten on `[0, seqLen)` with the input row and on
`[seqLen, seqLen + gen.length)` with the generated tokens (vllm.py lines
343-354 and 513-532). -/
def assembleRow (pad totalLen seqLen : Nat) (inputRow gen : List Nat) :
    List Nat :=
  (List.range totalLen).map (fun j =>
    if j < seqLen then inputRow.getD j pad
    else if j < seqLen + gen.length then gen.getD (j - seqLen) pad
    else pad)

/-- The log-probability fill loop of the synchronous `generate` (vllm.py
lines 358-369): for each generated position `idx` whose dictionary is
non-empty, write the FIRST entry's value (`next(iter(dict.items()))`) at
`seqLen + idx`.  An out-of-range position raises `IndexError`, which the
surrounding `except` catches: the loop aborts and the partially filled
tensor is kept. -/
def fillLogprobs (seqLen : Nat) (lps : List (List (Nat × Int)))
    (idx : Nat) (arr : List Int) : List Int :=
  match lps with
  | [] => arr
  | d :: rest =>
    match d with
    | [] => fillLogprobs seqLen rest (idx + 1) arr
    | p :: _ =>
      if seqLen + idx < arr.length then
        fillLogprobs seqLen rest (idx + 1) (arr.set (seqLen + idx) p.2)
      else arr

/-- Dictionary lookup `logprob_dict[token_id]` guarded by
`token_id in logprob_dict`. -/
def lookupLogprob (d : List (Nat × Int)) (tok : Nat) : Option Int :=
  (d.find? (fun p => p.1 == tok)).map (fun p => p.2)

/-- One iteration of the log-probability fill loop of `generate_async`
(vllm.py lines 544-559): when position `idx`'s dictionary is non-empty and
`idx < len(generated_token_ids)`, write the dictionary's value FOR THE
EMITTED TOKEN `generated_token_ids[idx]` at `seqLen + idx` (skipping the
position when the token is absent from the dictionary), guarded by an
explicit bound check on the output tensor. -/
def asyncLogprobStep (seqLen : Nat) (gen : List Nat)
    (d : List (Nat × Int)) (idx : Nat) (arr : List Int) : List Int :=
  if d.isEmpty then arr
  else if idx < gen.length then
    match lookupLogprob d (gen.getD idx 0) with
    | some v =>
      if seqLen + idx < arr.length then arr.set (seqLen + idx) v
      else arr
    | none => arr
  else arr

/-- The log-probability fill loop of `generate_async` (vllm.py lines
543-559): iterate `asyncLogprobStep` over the per-position
dictionaries. -/
def fillLogprobsAsync (seqLen : Nat) (gen : List Nat)
    (lps : List (List (Nat × Int))) (idx : Nat) (arr : List Int) :
    List Int :=
  match lps with
  | [] => arr
  | d :: rest =>
    fillLogprobsAsync seqLen gen rest (idx + 1)
      (asyncLogprobStep seqLen gen d idx arr)

/-- The output batch of `generate`/`generate_async`
(`GenerationOutputSpec`): output token ids, log-probabilities, generation
lengths and unpadded sequence lengths. -/
structure GenOut where
  output_ids : List (List Nat)
  logprobs : List (List Int)
  generation_lengths : List Nat
  unpadded_sequence_lengths : List Nat
deriving Repr, DecidableEq, Inhabited

/-- Embedding of `VllmGenerationWorker.generate` (vllm.py lines 261-393)
after the engine call: `outputs` is the engine's per-prompt result list
(one entry per input row).  An empty input batch returns the empty but
schema-complete result.  Otherwise every row is sized
`padded_input_length + max generated length` and assembled from the
original (right-padded) input row, that row's generated tokens, and pad
filler; log-probabilities are filled by `fillLogprobs`. -/
def generate (cfg : WorkerCfg) (input_ids : List (List Nat))
    (input_lengths : List Nat) (outputs : List CompletionOutput) : GenOut :=
  if input_ids.isEmpty then
    { output_ids := [], logprobs := []
      generation_lengths := [], unpadded_sequence_lengths := [] }
  else
    let paddedInputLength := (input_ids.headD []).length
    let totalLength := paddedInputLength + maxGenLen outputs
    { output_ids := (List.range outputs.length).map (fun i =>
        assembleRow cfg.pad_token_id totalLength (input_lengths.getD i 0)
          (input_ids.getD i []) ((outputs.getD i default).token_ids))
      logprobs := (List.range outputs.length).map (fun i =>
        fillLogprobs (input_lengths.getD i 0)
          ((outputs.getD i default).logprobs) 0
          (List.replicate totalLength 0))
      generation_lengths := outputs.map (fun o => o.token_ids.length)
      unpadded_sequence_lengths := (List.range outputs.length).map (fun i =>
        input_lengths.getD i 0 + (outputs.getD i default).token_ids.length) }

/-- The single-row batch built by `generate_async` for one completed
request (vllm.py lines 501-584): the output tensor is sized
`original padded length of this row + this row's generated length`,
independent of the other in-flight requests. -/
def generate_async_row (cfg : WorkerCfg) (inputRow : List Nat)
    (actualLen : Nat) (o : CompletionOutput) : GenOut :=
  let finalLen := inputRow.length + o.token_ids.length
  { output_ids :=
      [assembleRow cfg.pad_token_id finalLen actualLen inputRow o.token_ids]
    logprobs :=
      [fillLogprobsAsync actualLen o.token_ids o.logprobs 0
        (List.replicate finalLen 0)]
    generation_lengths := [o.token_ids.length]
    unpadded_sequence_lengths := [actualLen + o.token_ids.length] }

/-- Embedding of `VllmGenerationWorker.generate_async` (vllm.py lines
395-584).  `completions` is the completion-ordered list of
`(row index, final engine output)` pairs for the successfully completed
requests (a failed request is logged and skipped by the code, so it simply
does not appear).  The async generator raises `RuntimeError` before
yielding anything when the worker is not configured with the async
engine. -/
def generate_async (cfg : WorkerCfg) (input_ids : List (List Nat))
    (input_lengths : List Nat)
    (completions : List (Nat × CompletionOutput)) :
    Except String (List GenOut) :=
  if !cfg.async_engine then
    Except.error
      "generate_async can only be used when async_engine is enabled in vLLM config."
  else
    Except.ok (completions.map (fun c =>
      generate_async_row cfg (input_ids.getD c.1 [])
        (input_lengths.getD c.1 0) c.2))

/-- Embedding of the orchestrator entry point
`VllmGeneration.generate_async` (vllm.py lines 1050-1101): the same
engine-flavor guard, then dispatch to the workers and recombination of
their per-shard results (`workerResults`). -/
def vllm_generation_generate_async (asyncEngine : Bool)
    (workerResults : List (List GenOut)) : Except String (List GenOut) :=
  if !asyncEngine then
    Except.error
      "generate_async can only be used when async_engine is enabled in VllmConfig."
  else
    Except.ok workerResults.flatten

/-- Embedding of `VllmGenerationWorker.shutdown` (vllm.py lines 643-669).
The whole body is a `try/except` returning a boolean.  The inner `try`
around `shutdown_background_loop` only prints on failure
(`stopLoopRaises` cannot change the outcome).  Afterwards the engine
handle is cleared (`self.llm = None`) and resources are reclaimed
(`gc.collect()` / `torch.cuda.empty_cache()`); an exception there
(`reclaimRaises`) is caught by the outer `except` and yields `False`.
Returns `(result, engine handle still present)`. -/
def worker_shutdown (llmPresent asyncEngine stopLoopRaises
    reclaimRaises : Bool) : Bool × Bool :=
  let _stoppedLoop := llmPresent && asyncEngine && !stopLoopRaises
  if reclaimRaises then (false, false) else (true, false)

/-- Embedding of `VllmGeneration.shutdown` (vllm.py lines 1140-1147): it
delegates to the worker group's bulk shutdown and maps any exception to
`False`. -/
def vllm_generation_shutdown (groupResult : Except Unit Bool) : Bool :=
  match groupResult with
  | Except.error _ => false
  | Except.ok b => b

theorem assembleRow_length (pad totalLen seqLen : Nat)
    (inputRow gen : List Nat) :
    (assembleRow pad totalLen seqLen inputRow gen).length = totalLen := by
  simp [assembleRow]

theorem assembleRow_getD (pad totalLen seqLen : Nat)
    (inputRow gen : List Nat) (j : Nat) (hj : j < totalLen) :
    (assembleRow pad totalLen seqLen inputRow gen).getD j pad
      = if j < seqLen then inputRow.getD j pad
        else if j < seqLen + gen.length then gen.getD (j - seqLen) pad
        else pad := by
  unfold assembleRow
  rw [List.getD_eq_getElem?_getD, List.getElem?_map, List.getElem?_range hj]
  rfl

theorem le_foldl_maxGen (outs : List CompletionOutput) (a : Nat) :
    a ≤ outs.foldl (fun m o => max m o.token_ids.length) a := by
  induction outs generalizing a with
  | nil => simp
  | cons o rest ih =>
    simp only [List.foldl_cons]
    exact le_trans (Nat.le_max_left _ _) (ih _)

theorem mem_le_foldl_maxGen (outs : List CompletionOutput)
    (o : CompletionOutput) (ho : o ∈ outs) :
    ∀ a, o.token_ids.length
      ≤ outs.foldl (fun m q => max m q.token_ids.length) a := by
  induction outs with
  | nil => cases ho
  | cons p rest ih =>
    intro a
    simp only [List.foldl_cons]
    rcases List.mem_cons.mp ho with rfl | hmem
    · exact le_trans (Nat.le_max_right _ _) (le_foldl_maxGen rest _)
    · exact ih hmem _

theorem le_maxGenLen (outs : List CompletionOutput) (o : CompletionOutput)
    (ho : o ∈ outs) : o.token_ids.length ≤ maxGenLen outs :=
  mem_le_foldl_maxGen outs o ho 0

theorem generate_output_ids_getD (cfg : WorkerCfg) (ids : List (List Nat))
    (lens : List Nat) (outs : List CompletionOutput)
    (hne : ids ≠ []) (i : Nat) (hi : i < outs.length) :
    (generate cfg ids lens outs).output_ids.getD i []
      = assembleRow cfg.pad_token_id
          ((ids.headD []).length + maxGenLen outs) (lens.getD i 0)
          (ids.getD i []) ((outs.getD i default).token_ids) := by
  unfold generate
  rw [if_neg (by simpa [List.isEmpty_iff] using hne)]
  rw [List.getD_eq_getElem?_getD, List.getElem?_map, List.getElem?_range hi]
  rfl

theorem generate_logprobs_getD (cfg : WorkerCfg) (ids : List (List Nat))
    (lens : List Nat) (outs : List CompletionOutput)
    (hne : ids ≠ []) (i : Nat) (hi : i < outs.length) :
    (generate cfg ids lens outs).logprobs.getD i []
      = fillLogprobs (lens.getD i 0) ((outs.getD i default).logprobs) 0
          (List.replicate ((ids.headD []).length + maxGenLen outs) 0) := by
  unfold generate
  rw [if_neg (by simpa [List.isEmpty_iff] using hne)]
  rw [List.getD_eq_getElem?_getD, List.getElem?_map, List.getElem?_range hi]
  rfl

/-- C8: invoking `generate_async` — on the worker or on the orchestrator —
when `async_engine` is disabled yields the mode-mismatch `RuntimeError`
and produces no output rows. -/
theorem generate_async_mode_mismatch (cfg : WorkerCfg)
    (ids : List (List Nat)) (lens : List Nat)
    (comps : List (Nat × CompletionOutput))
    (workerResults : List (List GenOut))
    (h : cfg.async_engine = false) :
    generate_async cfg ids lens comps = Except.error
      "generate_async can only be used when async_engine is enabled in vLLM config." ∧
    (∀ res, generate_async cfg ids lens comps ≠ Except.ok res) ∧
    vllm_generation_generate_async cfg.async_engine workerResults
      = Except.error
        "generate_async can only be used when async_engine is enabled in VllmConfig." ∧
    (∀ res, vllm_generation_generate_async cfg.async_engine workerResults
      ≠ Except.ok res) := by
  refine ⟨?_, ?_, ?_, ?_⟩ <;>
    simp [generate_async, vllm_generation_generate_async, h]

/-- C8 witness: a concrete worker configuration with `async_engine`
disabled. -/
theorem generate_async_mode_mismatch_witness :
    generate_async ⟨1, 1, none, 16, [], 0, false⟩ [[9]] [1] []
      = Except.error
        "generate_async can only be used when async_engine is enabled in vLLM config." ∧
    (∀ res, generate_async ⟨1, 1, none, 16, [], 0, false⟩ [[9]] [1] []
      ≠ Except.ok res) ∧
    vllm_generation_generate_async
        (WorkerCfg.async_engine ⟨1, 1, none, 16, [], 0, false⟩) []
      = Except.error
        "generate_async can only be used when async_engine is enabled in VllmConfig." ∧
    (∀ res, vllm_generation_generate_async
        (WorkerCfg.async_engine ⟨1, 1, none, 16, [], 0, false⟩) []
      ≠ Except.ok res) :=
  generate_async_mode_mismatch ⟨1, 1, none, 16, [], 0, false⟩ [[9]] [1] []
    [] rfl

/-- C9 counterexample: the claim says `shutdown` returns `True` in any
state.  When resource reclamation raises (the outer `except` path), the
worker's `shutdown` returns `False`. -/
theorem worker_shutdown_can_return_false :
    (worker_shutdown true false false true).1 = false := rfl

/-- C9 (amended): `shutdown` is total and never raises — it always returns
a boolean, mapping any internal exception to `False` rather than
propagating it.  It clears the engine handle, its result is independent of
the worker state and of a failing `shutdown_background_loop`, it returns
`True` exactly when resource reclamation does not raise, and under
non-raising reclamation two successive calls (the second on the
already-cleared state) both return `True`.  The orchestrator's `shutdown`
returns the worker group's boolean and maps an exception to `False`. -/
theorem shutdown_spec (llmPresent asyncEngine stopLoopRaises
    reclaimRaises : Bool) :
    (worker_shutdown llmPresent asyncEngine stopLoopRaises
        reclaimRaises).1 = !reclaimRaises ∧
    (worker_shutdown llmPresent asyncEngine stopLoopRaises
        reclaimRaises).2 = false ∧
    (reclaimRaises = false →
      (worker_shutdown llmPresent asyncEngine stopLoopRaises
          reclaimRaises).1 = true ∧
      (worker_shutdown
          (worker_shutdown llmPresent asyncEngine stopLoopRaises
            reclaimRaises).2
          asyncEngine stopLoopRaises reclaimRaises).1 = true) ∧
    (∀ b, vllm_generation_shutdown (Except.ok b) = b) ∧
    vllm_generation_shutdown (Except.error ()) = false := by
  cases reclaimRaises <;>
    simp [worker_shutdown, vllm_generation_shutdown]

/-- C9 witness: a live owner worker with the async flavor whose background
loop stop fails but whose reclamation succeeds. -/
theorem shutdown_spec_witness :
    (worker_shutdown true true true false).1 = !false ∧
    (worker_shutdown true true true false).2 = false ∧
    (false = false →
      (worker_shutdown true true true false).1 = true ∧
      (worker_shutdown (worker_shutdown true true true false).2
          true true false).1 = true) ∧
    (∀ b, vllm_generation_shutdown (Except.ok b) = b) ∧
    vllm_generation_shutdown (Except.error ()) = false :=
  shutdown_spec true true true false

/-- C10: each single-row batch yielded by `generate_async` for a completed
request has `output_ids` width equal to that row's original padded length
plus that row's own generated length, independent of the other rows'
generations — while every row of the synchronous `generate` is padded to
`padded input length + batch-wide max generated length`. -/
theorem generate_async_row_width_spec (cfg : WorkerCfg)
    (ids : List (List Nat)) (lens : List Nat)
    (comps : List (Nat × CompletionOutput)) (res : List GenOut)
    (hasync : cfg.async_engine = true)
    (hres : generate_async cfg ids lens comps = Except.ok res)
    (k : Nat) (hk : k < comps.length)
    (outsS : List CompletionOutput) (i : Nat)
    (hneS : ids ≠ []) (hiS : i < outsS.length) :
    ((res.getD k default).output_ids.getD 0 []).length
      = (ids.getD (comps.getD k default).1 []).length
        + (comps.getD k default).2.token_ids.length ∧
    (res.getD k default).output_ids.length = 1 ∧
    ((generate cfg ids lens outsS).output_ids.getD i []).length
      = (ids.headD []).length + maxGenLen outsS := by
  have hres' : res = comps.map (fun c =>
      generate_async_row cfg (ids.getD c.1 []) (lens.getD c.1 0) c.2) := by
    unfold generate_async at hres
    rw [hasync] at hres
    simpa using hres.symm
  subst hres'
  have hk' : k < (comps.map (fun c =>
      generate_async_row cfg (ids.getD c.1 [])
        (lens.getD c.1 0) c.2)).length := by
    simpa using hk
  refine ⟨?_, ?_, ?_⟩
  · rw [List.getD_eq_getElem _ default hk', List.getElem_map,
      List.getD_eq_getElem comps default hk]
    simp [generate_async_row, assembleRow_length]
  · rw [List.getD_eq_getElem _ default hk', List.getElem_map]
    simp [generate_async_row]
  · rw [generate_output_ids_getD cfg ids lens outsS hneS i hiS]
    exact assembleRow_length _ _ _ _ _

/-- C10 witness: two completed requests with generated lengths 2 and 4 on
an 8-wide padded batch: the first yielded row has width 10 = 8 + 2 (its
own generation only), while the synchronous rows are all 12 = 8 + 4
wide. -/
theorem generate_async_row_width_spec_witness :
    (([(⟨[[9, 8, 7, 11, 12, 0, 0, 0, 0, 0]],
          [[0, 0, 0, 0, 0, 0, 0, 0, 0, 0]], [2], [5]⟩ : GenOut),
        ⟨[[1, 2, 3, 4, 5, 21, 22, 23, 24, 0, 0, 0]],
          [[0, 0, 0, 0, 0, 0, 0, 0, 0, 0, 0, 0]], [4],
          [9]⟩].getD 0 default).output_ids.getD 0 []).length
      = (([[9, 8, 7, 0, 0, 0, 0, 0],
           [1, 2, 3, 4, 5, 0, 0, 0]].getD
            (([((0 : Nat), (⟨[11, 12], []⟩ : CompletionOutput)),
               (1, ⟨[21, 22, 23, 24], []⟩)].getD 0 default).1) []).length
          + ([((0 : Nat), (⟨[11, 12], []⟩ : CompletionOutput)),
              (1, ⟨[21, 22, 23, 24], []⟩)].getD 0
              default).2.token_ids.length) ∧
    ([(⟨[[9, 8, 7, 11, 12, 0, 0, 0, 0, 0]],
         [[0, 0, 0, 0, 0, 0, 0, 0, 0, 0]], [2], [5]⟩ : GenOut),
       ⟨[[1, 2, 3, 4, 5, 21, 22, 23, 24, 0, 0, 0]],
         [[0, 0, 0, 0, 0, 0, 0, 0, 0, 0, 0, 0]], [4],
         [9]⟩].getD 0 default).output_ids.length = 1 ∧
    ((generate ⟨1, 1, none, 16, [], 0, true⟩
        [[9, 8, 7, 0, 0, 0, 0, 0], [1, 2, 3, 4, 5, 0, 0, 0]] [3, 5]
        [⟨[11, 12], []⟩,
         ⟨[21, 22, 23, 24], []⟩]).output_ids.getD 0 []).length
      = ([[9, 8, 7, 0, 0, 0, 0, 0],
          [1, 2, 3, 4, 5, 0, 0, 0]].headD []).length
        + maxGenLen [⟨[11, 12], []⟩, ⟨[21, 22, 23, 24], []⟩] :=
  generate_async_row_width_spec ⟨1, 1, none, 16, [], 0, true⟩
    [[9, 8, 7, 0, 0, 0, 0, 0], [1, 2, 3, 4, 5, 0, 0, 0]] [3, 5]
    [(0, ⟨[11, 12], []⟩), (1, ⟨[21, 22, 23, 24], []⟩)]
    [⟨[[9, 8, 7, 11, 12, 0, 0, 0, 0, 0]],
       [[0, 0, 0, 0, 0, 0, 0, 0, 0, 0]], [2], [5]⟩,
     ⟨[[1, 2, 3, 4, 5, 21, 22, 23, 24, 0, 0, 0]],
       [[0, 0, 0, 0, 0, 0, 0, 0, 0, 0, 0, 0]], [4], [9]⟩]
    rfl (by rfl) 0 (by decide)
    [⟨[11, 12], []⟩, ⟨[21, 22, 23, 24], []⟩] 0 (by decide) (by decide)

/-- C3: for a batch with uniform padded width `w`, valid right-padding and
declared input lengths, every output row of `generate` has length
`w + max generated length over the sub-batch`, reproduces the original
input token ids verbatim on `[0, input_length)`, places that row's
generated tokens immediately after its true (unpadded) input length, and
holds pad tokens elsewhere. -/
theorem generate_output_layout (cfg : WorkerCfg) (ids : List (List Nat))
    (lens : List Nat) (outs : List CompletionOutput) (w : Nat)
    (hne : ids ≠ [])
    (hw : ∀ r ∈ ids, r.length = w)
    (hout : outs.length = ids.length)
    (i : Nat) (hi : i < ids.length)
    (hL : lens.getD i 0 ≤ w) :
    ((generate cfg ids lens outs).output_ids.getD i []).length
        = w + maxGenLen outs ∧
    (∀ j, j < lens.getD i 0 →
      ((generate cfg ids lens outs).output_ids.getD i []).getD j
          cfg.pad_token_id
        = (ids.getD i []).getD j cfg.pad_token_id) ∧
    (∀ j, j < (outs.getD i default).token_ids.length →
      ((generate cfg ids lens outs).output_ids.getD i []).getD
          (lens.getD i 0 + j) cfg.pad_token_id
        = (outs.getD i default).token_ids.getD j cfg.pad_token_id) ∧
    (∀ j, lens.getD i 0 + (outs.getD i default).token_ids.length ≤ j →
      j < w + maxGenLen outs →
      ((generate cfg ids lens outs).output_ids.getD i []).getD j
          cfg.pad_token_id = cfg.pad_token_id) := by
  have hhead : (ids.headD []).length = w := by
    obtain ⟨r, rest, rfl⟩ := List.exists_cons_of_ne_nil hne
    exact hw r (List.mem_cons_self r rest)
  have hi' : i < outs.length := by omega
  have hrow := generate_output_ids_getD cfg ids lens outs hne i hi'
  rw [hhead] at hrow
  have hgen : (outs.getD i default).token_ids.length ≤ maxGenLen outs := by
    have hmem : outs.getD i default ∈ outs := by
      rw [List.getD_eq_getElem outs default hi']
      exact List.getElem_mem hi'
    exact le_maxGenLen outs _ hmem
  refine ⟨?_, ?_, ?_, ?_⟩
  · rw [hrow]
    exact assembleRow_length _ _ _ _ _
  · intro j hj
    rw [hrow, assembleRow_getD _ _ _ _ _ j (by omega), if_pos hj]
  · intro j hj
    rw [hrow,
      assembleRow_getD _ _ _ _ _ (lens.getD i 0 + j) (by omega),
      if_neg (by omega), if_pos (by omega)]
    congr 1
    omega
  · intro j hj1 hj2
    rw [hrow, assembleRow_getD _ _ _ _ _ j (by omega),
      if_neg (by omega), if_neg (by omega)]

/-- C3 witness: the spec's scenario — two rows with input lengths 3 and 5
padded to width 8, generations of length 2 and 4, hence output width 12;
instantiated at row 0. -/
theorem generate_output_layout_witness :
    ((generate ⟨1, 1, none, 16, [], 0, false⟩
        [[9, 8, 7, 0, 0, 0, 0, 0], [1, 2, 3, 4, 5, 0, 0, 0]] [3, 5]
        [⟨[11, 12], []⟩,
         ⟨[21, 22, 23, 24], []⟩]).output_ids.getD 0 []).length
      = 8 + maxGenLen [⟨[11, 12], []⟩, ⟨[21, 22, 23, 24], []⟩] ∧
    (∀ j, j < [3, 5].getD 0 0 →
      ((generate ⟨1, 1, none, 16, [], 0, false⟩
          [[9, 8, 7, 0, 0, 0, 0, 0], [1, 2, 3, 4, 5, 0, 0, 0]] [3, 5]
          [⟨[11, 12], []⟩,
           ⟨[21, 22, 23, 24], []⟩]).output_ids.getD 0 []).getD j 0
        = ([[9, 8, 7, 0, 0, 0, 0, 0],
            [1, 2, 3, 4, 5, 0, 0, 0]].getD 0 []).getD j 0) ∧
    (∀ j, j < (([⟨[11, 12], []⟩,
          (⟨[21, 22, 23, 24], []⟩ : CompletionOutput)].getD 0
          default).token_ids.length) →
      ((generate ⟨1, 1, none, 16, [], 0, false⟩
          [[9, 8, 7, 0, 0, 0, 0, 0], [1, 2, 3, 4, 5, 0, 0, 0]] [3, 5]
          [⟨[11, 12], []⟩,
           ⟨[21, 22, 23, 24], []⟩]).output_ids.getD 0 []).getD
          ([3, 5].getD 0 0 + j) 0
        = ([⟨[11, 12], []⟩,
            (⟨[21, 22, 23, 24], []⟩ : CompletionOutput)].getD 0
            default).token_ids.getD j 0) ∧
    (∀ j, [3, 5].getD 0 0 + (([⟨[11, 12], []⟩,
          (⟨[21, 22, 23, 24], []⟩ : CompletionOutput)].getD 0
          default).token_ids.length) ≤ j →
      j < 8 + maxGenLen [⟨[11, 12], []⟩, ⟨[21, 22, 23, 24], []⟩] →
      ((generate ⟨1, 1, none, 16, [], 0, false⟩
          [[9, 8, 7, 0, 0, 0, 0, 0], [1, 2, 3, 4, 5, 0, 0, 0]] [3, 5]
          [⟨[11, 12], []⟩,
           ⟨[21, 22, 23, 24], []⟩]).output_ids.getD 0 []).getD j 0
        = 0) :=
  generate_output_layout ⟨1, 1, none, 16, [], 0, false⟩
    [[9, 8, 7, 0, 0, 0, 0, 0], [1, 2, 3, 4, 5, 0, 0, 0]] [3, 5]
    [⟨[11, 12], []⟩, ⟨[21, 22, 23, 24], []⟩] 8
    (by decide) (by decide) (by decide) 0 (by decide) (by decide)

theorem getD_replicate_zero (n pos : Nat) :
    (List.replicate n (0 : Int)).getD pos 0 = 0 := by
  rw [List.getD_eq_getElem?_getD, List.getElem?_replicate]
  by_cases h : pos < n <;> simp [h]

theorem fillLogprobs_getD_lt (seqLen : Nat)
    (lps : List (List (Nat × Int))) :
    ∀ (idx : Nat) (arr : List Int) (pos : Nat), pos < seqLen + idx →
    (fillLogprobs seqLen lps idx arr).getD pos 0 = arr.getD pos 0 := by
  induction lps with
  | nil => intro idx arr pos _; rfl
  | cons d rest ih =>
    intro idx arr pos hpos
    cases d with
    | nil =>
      simp only [fillLogprobs]
      exact ih (idx + 1) arr pos (by omega)
    | cons p d' =>
      simp only [fillLogprobs]
      by_cases hb : seqLen + idx < arr.length
      · rw [if_pos hb, ih (idx + 1) _ pos (by omega),
          List.getD_eq_getElem?_getD, List.getD_eq_getElem?_getD,
          List.getElem?_set_ne (by omega)]
      · rw [if_neg hb]

theorem fillLogprobs_getD_eq (seqLen : Nat)
    (lps : List (List (Nat × Int))) :
    ∀ (idx k : Nat) (arr : List Int), k < lps.length →
    seqLen + idx + lps.length ≤ arr.length →
    (fillLogprobs seqLen lps idx arr).getD (seqLen + idx + k) 0
      = ((lps.getD k []).head?.map (fun p => p.2)).getD
          (arr.getD (seqLen + idx + k) 0) := by
  induction lps with
  | nil =>
    intro idx k arr hk _
    simp at hk
  | cons d rest ih =>
    intro idx k arr hk hbound
    simp only [List.length_cons] at hbound
    cases k with
    | zero =>
      cases d with
      | nil =>
        simp only [fillLogprobs]
        rw [fillLogprobs_getD_lt seqLen rest (idx + 1) arr _ (by omega)]
        simp
      | cons p d' =>
        have hb : seqLen + idx < arr.length := by omega
        simp only [fillLogprobs]
        rw [if_pos hb,
          fillLogprobs_getD_lt seqLen rest (idx + 1) _ _ (by omega)]
        simp only [Nat.add_zero, List.getD_eq_getElem?_getD,
          List.getElem?_set_self hb, Option.getD_some, List.getD_cons_zero]
        simp
    | succ k' =>
      have hk' : k' < rest.length := by
        simp at hk
        omega
      cases d with
      | nil =>
        simp only [fillLogprobs]
        have := ih (idx + 1) k' arr hk' (by omega)
        have harith : seqLen + idx + (k' + 1) = seqLen + (idx + 1) + k' := by
          omega
        rw [harith, this]
        simp
      | cons p d' =>
        have hb : seqLen + idx < arr.length := by omega
        simp only [fillLogprobs]
        rw [if_pos hb]
        have := ih (idx + 1) k' (arr.set (seqLen + idx) p.2) hk'
          (by simp [List.length_set]; omega)
        have harith : seqLen + idx + (k' + 1) = seqLen + (idx + 1) + k' := by
          omega
        rw [harith, this]
        simp only [List.getD_cons_succ]
        rw [List.getD_eq_getElem?_getD (arr.set (seqLen + idx) p.2),
          List.getElem?_set_ne (by omega), ← List.getD_eq_getElem?_getD]

theorem asyncLogprobStep_length (seqLen : Nat) (gen : List Nat)
    (d : List (Nat × Int)) (idx : Nat) (arr : List Int) :
    (asyncLogprobStep seqLen gen d idx arr).length = arr.length := by
  unfold asyncLogprobStep
  by_cases hd : d.isEmpty = true
  · rw [if_pos hd]
  · rw [if_neg hd]
    by_cases hg : idx < gen.length
    · rw [if_pos hg]
      cases hfind : lookupLogprob d (gen.getD idx 0) with
      | none => rfl
      | some v =>
        show (if seqLen + idx < arr.length then arr.set (seqLen + idx) v
          else arr).length = arr.length
        by_cases hb : seqLen + idx < arr.length
        · rw [if_pos hb, List.length_set]
        · rw [if_neg hb]
    · rw [if_neg hg]

theorem asyncLogprobStep_getD_ne (seqLen : Nat) (gen : List Nat)
    (d : List (Nat × Int)) (idx : Nat) (arr : List Int) (pos : Nat)
    (hne : pos ≠ seqLen + idx) :
    (asyncLogprobStep seqLen gen d idx arr).getD pos 0
      = arr.getD pos 0 := by
  unfold asyncLogprobStep
  by_cases hd : d.isEmpty = true
  · rw [if_pos hd]
  · rw [if_neg hd]
    by_cases hg : idx < gen.length
    · rw [if_pos hg]
      cases hfind : lookupLogprob d (gen.getD idx 0) with
      | none => rfl
      | some v =>
        show (if seqLen + idx < arr.length then arr.set (seqLen + idx) v
          else arr).getD pos 0 = arr.getD pos 0
        by_cases hb : seqLen + idx < arr.length
        · rw [if_pos hb, List.getD_eq_getElem?_getD,
            List.getD_eq_getElem?_getD,
            List.getElem?_set_ne (by omega)]
        · rw [if_neg hb]
    · rw [if_neg hg]

theorem asyncLogprobStep_getD_self (seqLen : Nat) (gen : List Nat)
    (d : List (Nat × Int)) (idx : Nat) (arr : List Int)
    (hg : idx < gen.length) (hb : seqLen + idx < arr.length) :
    (asyncLogprobStep seqLen gen d idx arr).getD (seqLen + idx) 0
      = (lookupLogprob d (gen.getD idx 0)).getD
          (arr.getD (seqLen + idx) 0) := by
  unfold asyncLogprobStep
  by_cases hd : d.isEmpty = true
  · rw [if_pos hd]
    rw [List.isEmpty_iff] at hd
    subst hd
    simp [lookupLogprob]
  · rw [if_neg hd, if_pos hg]
    cases hfind : lookupLogprob d (gen.getD idx 0) with
    | none => simp
    | some v =>
      show (if seqLen + idx < arr.length then arr.set (seqLen + idx) v
        else arr).getD (seqLen + idx) 0 = _
      rw [if_pos hb, List.getD_eq_getElem?_getD,
        List.getElem?_set_self hb]
      simp

theorem fillLogprobsAsync_getD_lt (seqLen : Nat) (gen : List Nat)
    (lps : List (List (Nat × Int))) :
    ∀ (idx : Nat) (arr : List Int) (pos : Nat), pos < seqLen + idx →
    (fillLogprobsAsync seqLen gen lps idx arr).getD pos 0
      = arr.getD pos 0 := by
  induction lps with
  | nil => intro idx arr pos _; rfl
  | cons d rest ih =>
    intro idx arr pos hpos
    simp only [fillLogprobsAsync]
    rw [ih (idx + 1) _ pos (by omega)]
    exact asyncLogprobStep_getD_ne seqLen gen d idx arr pos (by omega)

theorem fillLogprobsAsync_getD_ge (seqLen : Nat) (gen : List Nat)
    (lps : List (List (Nat × Int))) :
    ∀ (idx : Nat) (arr : List Int) (pos : Nat),
    seqLen + idx + lps.length ≤ pos →
    (fillLogprobsAsync seqLen gen lps idx arr).getD pos 0
      = arr.getD pos 0 := by
  induction lps with
  | nil => intro idx arr pos _; rfl
  | cons d rest ih =>
    intro idx arr pos hpos
    simp only [List.length_cons] at hpos
    simp only [fillLogprobsAsync]
    rw [ih (idx + 1) _ pos (by omega)]
    exact asyncLogprobStep_getD_ne seqLen gen d idx arr pos (by omega)

theorem fillLogprobsAsync_getD_eq (seqLen : Nat) (gen : List Nat)
    (lps : List (List (Nat × Int))) :
    ∀ (idx k : Nat) (arr : List Int), k < lps.length →
    idx + k < gen.length → seqLen + idx + k < arr.length →
    (fillLogprobsAsync seqLen gen lps idx arr).getD (seqLen + idx + k) 0
      = (lookupLogprob (lps.getD k []) (gen.getD (idx + k) 0)).getD
          (arr.getD (seqLen + idx + k) 0) := by
  induction lps with
  | nil =>
    intro idx k arr hk _ _
    simp at hk
  | cons d rest ih =>
    intro idx k arr hk hkg hb
    cases k with
    | zero =>
      simp only [fillLogprobsAsync, Nat.add_zero, List.getD_cons_zero]
        at *
      rw [fillLogprobsAsync_getD_lt seqLen gen rest (idx + 1) _ _
        (by omega)]
      exact asyncLogprobStep_getD_self seqLen gen d idx arr hkg hb
    | succ k' =>
      have hk' : k' < rest.length := by
        simp at hk
        omega
      have harith : seqLen + idx + (k' + 1) = seqLen + (idx + 1) + k' := by
        omega
      have harith2 : idx + (k' + 1) = idx + 1 + k' := by omega
      simp only [fillLogprobsAsync]
      rw [harith, harith2,
        ih (idx + 1) k' (asyncLogprobStep seqLen gen d idx arr) hk'
          (by omega)
          (by rw [asyncLogprobStep_length]; omega)]
      rw [asyncLogprobStep_getD_ne seqLen gen d idx arr _ (by omega)]
      simp only [List.getD_cons_succ]

/-- C6 counterexample: the claim says the recorded log-probability equals
the engine's value for the token actually emitted.  One row, one generated
token `7`, and a per-position dictionary whose first entry is for token
`5` with value `-1` while the emitted token `7` has value `-2`: the
synchronous `generate` records `-1` (the dictionary's first entry,
`next(iter(logprob_dict.items()))`), not the emitted token's `-2`. -/
theorem generate_logprob_first_entry_cex :
    ((generate ⟨1, 1, none, 16, [], 0, false⟩ [[9]] [1]
        [⟨[7], [[(5, -1), (7, -2)]]⟩]).logprobs.getD 0 []).getD 1 0
      = -1 ∧
    lookupLogprob [(5, -1), (7, -2)] 7 = some (-2) ∧
    ((-1 : Int) ≠ -2) :=
  ⟨rfl, rfl, by decide⟩

/-- C6 (amended): the log-probability recorded for a generated position
is: in `generate_async`, the engine's reported value for the token
actually emitted at that position, or 0 when the engine reports no
dictionary there or the emitted token is absent from it; but in the
synchronous `generate`, the FIRST entry of the engine's per-position
dictionary regardless of which token it belongs to, or 0 when the
dictionary is missing or empty. -/
theorem logprob_recording_spec (cfg : WorkerCfg) (ids : List (List Nat))
    (lens : List Nat) (outs : List CompletionOutput) (w : Nat)
    (hne : ids ≠ []) (hw : ∀ r ∈ ids, r.length = w)
    (hout : outs.length = ids.length)
    (i : Nat) (hi : i < ids.length) (hL : lens.getD i 0 ≤ w)
    (hlp : (outs.getD i default).logprobs.length
      ≤ (outs.getD i default).token_ids.length)
    (inputRow : List Nat) (actualLen : Nat) (o : CompletionOutput)
    (hAL : actualLen ≤ inputRow.length) :
    (∀ idx, idx < (outs.getD i default).logprobs.length →
      ((generate cfg ids lens outs).logprobs.getD i []).getD
          (lens.getD i 0 + idx) 0
        = (((outs.getD i default).logprobs.getD idx []).head?.map
            (fun p => p.2)).getD 0) ∧
    (∀ idx, idx < o.token_ids.length →
      ((generate_async_row cfg inputRow actualLen o).logprobs.getD 0
          []).getD (actualLen + idx) 0
        = (lookupLogprob (o.logprobs.getD idx [])
            (o.token_ids.getD idx 0)).getD 0) := by
  constructor
  · intro idx hidx
    have hi' : i < outs.length := by omega
    have hhead : (ids.headD []).length = w := by
      obtain ⟨r, rest, rfl⟩ := List.exists_cons_of_ne_nil hne
      exact hw r (List.mem_cons_self r rest)
    have hrow := generate_logprobs_getD cfg ids lens outs hne i hi'
    rw [hhead] at hrow
    have hgen : (outs.getD i default).token_ids.length
        ≤ maxGenLen outs := by
      have hmem : outs.getD i default ∈ outs := by
        rw [List.getD_eq_getElem outs default hi']
        exact List.getElem_mem hi'
      exact le_maxGenLen outs _ hmem
    rw [hrow]
    have h := fillLogprobs_getD_eq (lens.getD i 0)
      ((outs.getD i default).logprobs) 0 idx
      (List.replicate (w + maxGenLen outs) 0) hidx
      (by rw [List.length_replicate]; omega)
    simpa [getD_replicate_zero] using h
  · intro idx hidx
    have hrow : (generate_async_row cfg inputRow actualLen
          o).logprobs.getD 0 []
        = fillLogprobsAsync actualLen o.token_ids o.logprobs 0
            (List.replicate (inputRow.length + o.token_ids.length) 0) :=
      rfl
    rw [hrow]
    by_cases hix : idx < o.logprobs.length
    · have h := fillLogprobsAsync_getD_eq actualLen o.token_ids
        o.logprobs 0 idx
        (List.replicate (inputRow.length + o.token_ids.length) 0) hix
        (by omega) (by rw [List.length_replicate]; omega)
      simpa [getD_replicate_zero] using h
    · rw [fillLogprobsAsync_getD_ge actualLen o.token_ids o.logprobs 0 _
        _ (by omega)]
      rw [getD_replicate_zero,
        List.getD_eq_default _ _ (by omega)]
      simp [lookupLogprob]

/-- C6 amended witness: one synchronous row (length-1 input, two generated
tokens, a one-entry dictionary then a missing one) and one async request
(emitted token 7 with value -4 in its dictionary), all hypotheses
discharged concretely. -/
theorem logprob_recording_spec_witness :
    (∀ idx, idx < (([(⟨[7, 8], [[(7, -3)], []]⟩ : CompletionOutput)].getD
        0 default).logprobs.length) →
      ((generate ⟨1, 1, none, 16, [], 0, false⟩ [[9]] [1]
          [⟨[7, 8], [[(7, -3)], []]⟩]).logprobs.getD 0 []).getD
          ([1].getD 0 0 + idx) 0
        = ((([(⟨[7, 8], [[(7, -3)], []]⟩ : CompletionOutput)].getD 0
            default).logprobs.getD idx []).head?.map
            (fun p => p.2)).getD 0) ∧
    (∀ idx, idx < (⟨[7], [[(7, -4)]]⟩ : CompletionOutput).token_ids.length →
      ((generate_async_row ⟨1, 1, none, 16, [], 0, false⟩ [9] 1
          ⟨[7], [[(7, -4)]]⟩).logprobs.getD 0 []).getD (1 + idx) 0
        = (lookupLogprob
            ((⟨[7], [[(7, -4)]]⟩ : CompletionOutput).logprobs.getD idx [])
            ((⟨[7], [[(7, -4)]]⟩ : CompletionOutput).token_ids.getD idx
              0)).getD 0) :=
  logprob_recording_spec ⟨1, 1, none, 16, [], 0, false⟩ [[9]] [1]
    [⟨[7, 8], [[(7, -3)], []]⟩] 1 (by decide) (by decide) (by decide) 0
    (by decide) (by decide) (by decide) [9] 1 ⟨[7], [[(7, -4)]]⟩
    (by decide)

end NemoVllm
